import Mathlib

set_option autoImplicit false

/- Shallow embedding of the client-side authentication session manager of
   src/frontend/src/iam.ts.  Times are integer milliseconds since the epoch
   (the value of a JavaScript Date); each top-level operation receives the
   single value `now` of `new Date()` during that operation.  HTTP outcomes
   of login/refresh round trips are supplied explicitly. -/

/-- In-memory session (the State interface of iam.ts). -/
structure Session where
  accessToken : String
  accessTokenExpiration : Int
  refreshToken : String
  refreshTokenExpiration : Int
  email : String
  firstName : String
  lastName : String
deriving DecidableEq, Repr

/-- What the "auth" localStorage key can hold, as seen by JSON.parse:
a string that JSON.parse rejects, the JSON literal null, or a serialized
session (date strings already decoded to their millisecond value). -/
inductive StoredData
  | malformed
  | jsonNull
  | session (s : Session)
deriving DecidableEq, Repr

/-- Externally observable side effects other than storage and timer changes. -/
inductive Event
  | httpLoginCall
  | httpRefreshCall
  | httpLogoutCall
  | navPushLogin
deriving DecidableEq, Repr

/-- Outcome of one HTTP login/refresh round trip: the decoded LoginResponse
payload on success, or a rejection. -/
inductive HttpResult
  | ok (resp : Session)
  | err
deriving DecidableEq, Repr

/-- The module-level mutable environment of iam.ts: the `state` ref, the
localStorage entry under the "auth" key, the `refreshTimerId` variable, the
set of armed-but-unfired timers (id and requested delay), a fresh-id counter
for window.setTimeout, and the trace of HTTP and router effects. -/
structure World where
  state : Option Session
  storage : Option StoredData
  refreshTimerId : Option Nat
  pendingTimers : List (Nat × Int)
  nextTimerId : Nat
  events : List Event
deriving DecidableEq, Repr

/-- The environment at process start: `state` is null, `refreshTimerId` is
null, no timer is armed; storage holds whatever the previous process left. -/
def initialWorld (storage : Option StoredData) : World :=
  { state := none, storage := storage, refreshTimerId := none,
    pendingTimers := [], nextTimerId := 0, events := [] }

/-- readStateFromStorage of iam.ts.  JSON.parse of a malformed value throws
(the SyntaxError propagates, modelled as `Except.error`); a stored JSON null
and an absent key give null; a parsed session whose refreshTokenExpiration
is at or before `now` gives null; otherwise the session is returned. -/
def readStateFromStorage (now : Int) (storage : Option StoredData) :
    Except Unit (Option Session) :=
  match storage with
  | none => .ok none
  | some .malformed => .error ()
  | some .jsonNull => .ok none
  | some (.session s) =>
    if s.refreshTokenExpiration ≤ now then .ok none
    else .ok (some s)

/-- The `if (refreshTimerId != null) clearTimeout(refreshTimerId)` step:
removes the timer with that id from the pending set (a no-op if it already
fired or was never armed). -/
def cancelCurrent (w : World) : World :=
  { w with pendingTimers :=
      match w.refreshTimerId with
      | some i => w.pendingTimers.filter (fun p => p.1 != i)
      | none => w.pendingTimers }

/-- window.setTimeout(refresh-callback, delay): arms a fresh one-shot timer
and stores its id in refreshTimerId. -/
def armTimer (delay : Int) (w : World) : World :=
  { w with pendingTimers := w.pendingTimers ++ [(w.nextTimerId, delay)],
           refreshTimerId := some w.nextTimerId,
           nextTimerId := w.nextTimerId + 1 }

/-- The write-through pair `state.value = s; writeStateToStorage(s)`. -/
def setSession (s : Session) (w : World) : World :=
  { w with state := some s, storage := some (.session s) }

/-- The pair `state.value = null; removeStateFromStorage()`. -/
def clearedW (w : World) : World :=
  { w with state := none, storage := none }

def recordEvent (e : Event) (w : World) : World :=
  { w with events := w.events ++ [e] }

/-- scheduleAutoRefresh of iam.ts, with the `await refresh().catch(...)` of
the stale-access-token branch inlined (refresh re-enters scheduleAutoRefresh
on success, consuming the next HTTP outcome from `outs`; an empty `outs`
stands for a rejected round trip).  Cancels the current timer first; forces
logout when the refresh token is expired; refreshes immediately when the
access token is expired, clearing state and storage if that refresh rejects;
otherwise arms a one-shot timer for (accessTokenExpiration - 1 min) - now. -/
def scheduleAutoRefresh (now : Int) (outs : List HttpResult) (w : World) :
    World :=
  match w.state with
  | none => cancelCurrent w
  | some s =>
    if s.refreshTokenExpiration ≤ now then clearedW (cancelCurrent w)
    else if s.accessTokenExpiration ≤ now then
      match outs with
      | [] => clearedW (recordEvent .httpRefreshCall (cancelCurrent w))
      | .err :: _ => clearedW (recordEvent .httpRefreshCall (cancelCurrent w))
      | .ok resp :: rest =>
        scheduleAutoRefresh now rest
          (setSession resp (recordEvent .httpRefreshCall (cancelCurrent w)))
    else armTimer (s.accessTokenExpiration - 60000 - now) (cancelCurrent w)

/-- The exported refresh() of iam.ts.  Returns the updated world and whether
the returned promise resolves (`true`) or rejects (`false`).  When logged
out it resolves without any effect; otherwise it performs the HTTP call,
and on success installs the response write-through and re-enters
scheduleAutoRefresh; on rejection the error propagates to the caller with
state, storage and timers untouched. -/
def refreshRun (now : Int) (outs : List HttpResult) (w : World) :
    World × Bool :=
  match w.state with
  | none => (w, true)
  | some _ =>
    let w1 := recordEvent .httpRefreshCall w
    match outs with
    | [] => (w1, false)
    | .err :: _ => (w1, false)
    | .ok resp :: rest =>
      (scheduleAutoRefresh now rest (setSession resp w1), true)

/-- login of iam.ts: the HTTP call, then on success the write-through of the
response followed by scheduleAutoRefresh; a rejected call propagates with no
state change. -/
def login (now : Int) (outcome : HttpResult) (outs : List HttpResult)
    (w : World) : World × Bool :=
  let w1 := recordEvent .httpLoginCall w
  match outcome with
  | .err => (w1, false)
  | .ok resp => (scheduleAutoRefresh now outs (setSession resp w1), true)

/-- clearTokens of iam.ts: cancel the current timer if any, null the state,
remove the storage entry, navigate to the Login route. -/
def clearTokens (w : World) : World :=
  recordEvent .navPushLogin (clearedW (cancelCurrent w))

/-- logout of iam.ts: a no-op when logged out; otherwise the authenticated
logout call is attempted and, whether it resolves or throws (`endpointOk`),
clearTokens runs unconditionally. -/
def logout (_endpointOk : Bool) (w : World) : World :=
  match w.state with
  | none => w
  | some _ => clearTokens (recordEvent .httpLogoutCall w)

/-- AuthPlugin.install of iam.ts, up to registering the navigation guard:
read the stored state (a JSON.parse failure propagates before any
mutation); if absent, remove the storage entry and leave `state` alone;
otherwise assign it to `state` and run scheduleAutoRefresh. -/
def install (now : Int) (outs : List HttpResult) (w : World) :
    Except Unit World :=
  match readStateFromStorage now w.storage with
  | .error _ => .error ()
  | .ok none => .ok { w with storage := none }
  | .ok (some s) =>
    .ok (scheduleAutoRefresh now outs { w with state := some s })

/-- The armed timer firing: the runtime removes it from the pending set and
runs `refresh().catch(console.error)` — a rejection is only logged. -/
def timerFire (now : Int) (outs : List HttpResult) (w : World) : World :=
  match w.pendingTimers with
  | [] => w
  | _ :: rest =>
    (refreshRun now outs { w with pendingTimers := rest }).1

/-- Result of the router.beforeEach guard. -/
inductive GuardResult
  | redirectLogin
  | redirectHome
  | allow
deriving DecidableEq, Repr

/-- The router.beforeEach guard registered by AuthPlugin.install:
`to.meta?.requiresAuth ?? true` and `to.meta?.redirectIfLoggedIn ?? true`
are Option Bool with default true; `st` is the current `state.value`. -/
def beforeEachGuard (requiresAuth redirectIfLoggedIn : Option Bool)
    (st : Option Session) : GuardResult :=
  if (requiresAuth.getD true) && st.isNone then .redirectLogin
  else if !(requiresAuth.getD true) && (redirectIfLoggedIn.getD true)
      && st.isSome then .redirectHome
  else .allow

/-- One top-level operation of the manager, with its HTTP outcomes. -/
inductive Op
  | loginOp (outcome : HttpResult) (outs : List HttpResult)
  | refreshOp (outs : List HttpResult)
  | logoutOp (endpointOk : Bool)
  | installOp (outs : List HttpResult)
  | timerFireOp (outs : List HttpResult)
deriving DecidableEq, Repr

/-- Apply one operation at time `now`.  An install whose storage read throws
leaves the environment unchanged (the exception escapes before mutation). -/
def applyOp (now : Int) (op : Op) (w : World) : World :=
  match op with
  | .loginOp outcome outs => (login now outcome outs w).1
  | .refreshOp outs => (refreshRun now outs w).1
  | .logoutOp b => logout b w
  | .installOp outs =>
    match install now outs w with
    | .ok w1 => w1
    | .error _ => w
  | .timerFireOp outs => timerFire now outs w

/-- Run a sequence of timed operations. -/
def runOps (l : List (Int × Op)) (w : World) : World :=
  match l with
  | [] => w
  | (now, op) :: rest => runOps rest (applyOp now op w)

/-- At most one pending refresh timer, and when one is pending its id is
the one recorded in refreshTimerId. -/
def TimerInv (w : World) : Prop :=
  w.pendingTimers = [] ∨
  ∃ i d, w.pendingTimers = [(i, d)] ∧ w.refreshTimerId = some i

/-- Write-through agreement of storage with the in-memory state: the "auth"
entry holds the serialization of the in-memory session when one exists, and
is absent when none does. -/
def Sync (w : World) : Prop :=
  w.storage = Option.map StoredData.session w.state

theorem cancelCurrent_state (w : World) : (cancelCurrent w).state = w.state :=
  rfl

theorem cancelCurrent_storage (w : World) :
    (cancelCurrent w).storage = w.storage := rfl

theorem cancelCurrent_rid (w : World) :
    (cancelCurrent w).refreshTimerId = w.refreshTimerId := rfl

theorem cancelCurrent_next (w : World) :
    (cancelCurrent w).nextTimerId = w.nextTimerId := rfl

theorem cancelCurrent_events (w : World) :
    (cancelCurrent w).events = w.events := rfl

theorem cancel_pending_nil (w : World) (h : TimerInv w) :
    (cancelCurrent w).pendingTimers = [] := by
  rcases h with h | ⟨i, d, hp, hr⟩
  · simp only [cancelCurrent, h]
    cases w.refreshTimerId <;> simp
  · simp [cancelCurrent, hp, hr]

theorem schedule_unfold (now : Int) (outs : List HttpResult) (w : World) :
    scheduleAutoRefresh now outs w =
      match w.state with
      | none => cancelCurrent w
      | some s =>
        if s.refreshTokenExpiration ≤ now then clearedW (cancelCurrent w)
        else if s.accessTokenExpiration ≤ now then
          match outs with
          | [] => clearedW (recordEvent .httpRefreshCall (cancelCurrent w))
          | .err :: _ =>
            clearedW (recordEvent .httpRefreshCall (cancelCurrent w))
          | .ok resp :: rest =>
            scheduleAutoRefresh now rest
              (setSession resp (recordEvent .httpRefreshCall (cancelCurrent w)))
        else armTimer (s.accessTokenExpiration - 60000 - now) (cancelCurrent w)
      := by
  rcases w with ⟨st, sto, rid, pt, nid, ev⟩
  cases st <;> cases outs <;> try rfl
  case some.cons s head rest => cases head <;> rfl

theorem schedule_forced (now : Int) (outs : List HttpResult) (w : World)
    (s : Session) (hs : w.state = some s)
    (h1 : s.refreshTokenExpiration ≤ now) :
    scheduleAutoRefresh now outs w = clearedW (cancelCurrent w) := by
  rw [schedule_unfold, hs]
  simp [h1]

theorem schedule_arm (now : Int) (outs : List HttpResult) (w : World)
    (s : Session) (hs : w.state = some s)
    (h1 : ¬ s.refreshTokenExpiration ≤ now)
    (h2 : ¬ s.accessTokenExpiration ≤ now) :
    scheduleAutoRefresh now outs w =
      armTimer (s.accessTokenExpiration - 60000 - now) (cancelCurrent w) := by
  rw [schedule_unfold, hs]
  simp [h1, h2]

theorem schedule_immediate (now : Int) (outs : List HttpResult) (w : World)
    (s : Session) (hs : w.state = some s)
    (h1 : ¬ s.refreshTokenExpiration ≤ now)
    (h2 : s.accessTokenExpiration ≤ now) :
    scheduleAutoRefresh now outs w =
      (if (refreshRun now outs (cancelCurrent w)).2 then
        (refreshRun now outs (cancelCurrent w)).1
      else clearedW (refreshRun now outs (cancelCurrent w)).1) := by
  rw [schedule_unfold, hs, refreshRun, cancelCurrent_state, hs]
  cases outs with
  | nil => simp [h1, h2]
  | cons head rest => cases head <;> simp [h1, h2]

theorem schedule_run (now : Int) :
    ∀ (outs : List HttpResult) (w : World) (s : Session),
      TimerInv w → w.state = some s →
      w.storage = some (StoredData.session s) →
      ((scheduleAutoRefresh now outs w).state = none ∧
        (scheduleAutoRefresh now outs w).storage = none ∧
        (scheduleAutoRefresh now outs w).pendingTimers = []) ∨
      (∃ i t, (scheduleAutoRefresh now outs w).state = some t ∧
        (scheduleAutoRefresh now outs w).storage =
          some (StoredData.session t) ∧
        ¬ t.refreshTokenExpiration ≤ now ∧
        ¬ t.accessTokenExpiration ≤ now ∧
        (scheduleAutoRefresh now outs w).pendingTimers =
          [(i, t.accessTokenExpiration - 60000 - now)] ∧
        (scheduleAutoRefresh now outs w).refreshTimerId = some i) := by
  intro outs
  induction outs with
  | nil =>
    intro w s hinv hs hsto
    by_cases h1 : s.refreshTokenExpiration ≤ now
    · rw [schedule_forced now [] w s hs h1]
      exact Or.inl ⟨rfl, rfl, cancel_pending_nil w hinv⟩
    · by_cases h2 : s.accessTokenExpiration ≤ now
      · rw [schedule_unfold, hs]
        simp only [if_neg h1, if_pos h2]
        exact Or.inl ⟨rfl, rfl, cancel_pending_nil w hinv⟩
      · rw [schedule_arm now [] w s hs h1 h2]
        refine Or.inr ⟨w.nextTimerId, s, hs, hsto, h1, h2, ?_, rfl⟩
        show (cancelCurrent w).pendingTimers ++ _ = _
        rw [cancel_pending_nil w hinv]
        rfl
  | cons head rest ih =>
    intro w s hinv hs hsto
    by_cases h1 : s.refreshTokenExpiration ≤ now
    · rw [schedule_forced now (head :: rest) w s hs h1]
      exact Or.inl ⟨rfl, rfl, cancel_pending_nil w hinv⟩
    · by_cases h2 : s.accessTokenExpiration ≤ now
      · cases head with
        | err =>
          rw [schedule_unfold, hs]
          simp only [if_neg h1, if_pos h2]
          exact Or.inl ⟨rfl, rfl, cancel_pending_nil w hinv⟩
        | ok resp =>
          rw [schedule_unfold, hs]
          simp only [if_neg h1, if_pos h2]
          exact ih
            (setSession resp (recordEvent .httpRefreshCall (cancelCurrent w)))
            resp (Or.inl (cancel_pending_nil w hinv)) rfl rfl
      · rw [schedule_arm now (head :: rest) w s hs h1 h2]
        refine Or.inr ⟨w.nextTimerId, s, hs, hsto, h1, h2, ?_, rfl⟩
        show (cancelCurrent w).pendingTimers ++ _ = _
        rw [cancel_pending_nil w hinv]
        rfl

theorem schedule_sync (now : Int) :
    ∀ (outs : List HttpResult) (w : World),
      Sync w → Sync (scheduleAutoRefresh now outs w) := by
  intro outs
  induction outs with
  | nil =>
    intro w hsync
    cases hs : w.state with
    | none => rw [schedule_unfold, hs]; exact hsync
    | some s =>
      by_cases h1 : s.refreshTokenExpiration ≤ now
      · rw [schedule_forced now [] w s hs h1]; rfl
      · by_cases h2 : s.accessTokenExpiration ≤ now
        · rw [schedule_unfold, hs]
          simp only [if_neg h1, if_pos h2]
          rfl
        · rw [schedule_arm now [] w s hs h1 h2]; exact hsync
  | cons head rest ih =>
    intro w hsync
    cases hs : w.state with
    | none => rw [schedule_unfold, hs]; exact hsync
    | some s =>
      by_cases h1 : s.refreshTokenExpiration ≤ now
      · rw [schedule_forced now (head :: rest) w s hs h1]; rfl
      · by_cases h2 : s.accessTokenExpiration ≤ now
        · cases head with
          | err =>
            rw [schedule_unfold, hs]
            simp only [if_neg h1, if_pos h2]
            rfl
          | ok resp =>
            rw [schedule_unfold, hs]
            simp only [if_neg h1, if_pos h2]
            exact ih _ rfl
        · rw [schedule_arm now (head :: rest) w s hs h1 h2]; exact hsync

theorem schedule_shape (now : Int) :
    ∀ (outs : List HttpResult) (w : World), TimerInv w →
      ((scheduleAutoRefresh now outs w).state = none ∧
        (scheduleAutoRefresh now outs w).pendingTimers = []) ∨
      ((scheduleAutoRefresh now outs w).state.isSome = true ∧
        ∃ i d, (scheduleAutoRefresh now outs w).pendingTimers = [(i, d)] ∧
          (scheduleAutoRefresh now outs w).refreshTimerId = some i) := by
  intro outs
  induction outs with
  | nil =>
    intro w hinv
    cases hs : w.state with
    | none =>
      rw [schedule_unfold, hs]
      exact Or.inl ⟨hs, cancel_pending_nil w hinv⟩
    | some s =>
      by_cases h1 : s.refreshTokenExpiration ≤ now
      · rw [schedule_forced now [] w s hs h1]
        exact Or.inl ⟨rfl, cancel_pending_nil w hinv⟩
      · by_cases h2 : s.accessTokenExpiration ≤ now
        · rw [schedule_unfold, hs]
          simp only [if_neg h1, if_pos h2]
          exact Or.inl ⟨rfl, cancel_pending_nil w hinv⟩
        · rw [schedule_arm now [] w s hs h1 h2]
          refine Or.inr ⟨by rw [show (armTimer _ (cancelCurrent w)).state =
            w.state from rfl, hs]; rfl, w.nextTimerId,
            s.accessTokenExpiration - 60000 - now, ?_, rfl⟩
          show (cancelCurrent w).pendingTimers ++ _ = _
          rw [cancel_pending_nil w hinv]
          rfl
  | cons head rest ih =>
    intro w hinv
    cases hs : w.state with
    | none =>
      rw [schedule_unfold, hs]
      exact Or.inl ⟨hs, cancel_pending_nil w hinv⟩
    | some s =>
      by_cases h1 : s.refreshTokenExpiration ≤ now
      · rw [schedule_forced now (head :: rest) w s hs h1]
        exact Or.inl ⟨rfl, cancel_pending_nil w hinv⟩
      · by_cases h2 : s.accessTokenExpiration ≤ now
        · cases head with
          | err =>
            rw [schedule_unfold, hs]
            simp only [if_neg h1, if_pos h2]
            exact Or.inl ⟨rfl, cancel_pending_nil w hinv⟩
          | ok resp =>
            rw [schedule_unfold, hs]
            simp only [if_neg h1, if_pos h2]
            exact ih _ (Or.inl (cancel_pending_nil w hinv))
        · rw [schedule_arm now (head :: rest) w s hs h1 h2]
          refine Or.inr ⟨by rw [show (armTimer _ (cancelCurrent w)).state =
            w.state from rfl, hs]; rfl, w.nextTimerId,
            s.accessTokenExpiration - 60000 - now, ?_, rfl⟩
          show (cancelCurrent w).pendingTimers ++ _ = _
          rw [cancel_pending_nil w hinv]
          rfl

theorem schedule_inv (now : Int) (outs : List HttpResult) (w : World)
    (hinv : TimerInv w) : TimerInv (scheduleAutoRefresh now outs w) := by
  rcases schedule_shape now outs w hinv with ⟨_, hp⟩ | ⟨_, i, d, hp, hr⟩
  · exact Or.inl hp
  · exact Or.inr ⟨i, d, hp, hr⟩

theorem schedule_len_one (now : Int) (outs : List HttpResult) (w : World)
    (hinv : TimerInv w)
    (hsome : (scheduleAutoRefresh now outs w).state.isSome = true) :
    (scheduleAutoRefresh now outs w).pendingTimers.length = 1 := by
  rcases schedule_shape now outs w hinv with ⟨hn, _⟩ | ⟨_, i, d, hp, _⟩
  · rw [hn] at hsome
    simp at hsome
  · rw [hp]
    rfl

theorem refreshRun_inv (now : Int) (outs : List HttpResult) (w : World)
    (hinv : TimerInv w) : TimerInv (refreshRun now outs w).1 := by
  rcases w with ⟨st, sto, rid, pt, nid, ev⟩
  cases st with
  | none => exact hinv
  | some s =>
    cases outs with
    | nil => exact hinv
    | cons head rest =>
      cases head with
      | err => exact hinv
      | ok resp => exact schedule_inv now rest _ hinv

theorem install_inv (now : Int) (outs : List HttpResult) (w : World)
    (hinv : TimerInv w) :
    ∀ w1, install now outs w = .ok w1 → TimerInv w1 := by
  intro w1 h
  rcases w with ⟨st, sto, rid, pt, nid, ev⟩
  rcases sto with _ | sto
  · cases h
    exact hinv
  · rcases sto with _ | _ | s
    · exact Except.noConfusion h
    · cases h
      exact hinv
    · by_cases h1 : s.refreshTokenExpiration ≤ now
      · rw [install, readStateFromStorage] at h
        simp only [if_pos h1] at h
        cases h
        exact hinv
      · rw [install, readStateFromStorage] at h
        simp only [if_neg h1] at h
        cases h
        exact schedule_inv now outs _ hinv

theorem applyOp_inv (now : Int) (op : Op) (w : World) (hinv : TimerInv w) :
    TimerInv (applyOp now op w) := by
  cases op with
  | loginOp outcome outs =>
    cases outcome with
    | err => exact hinv
    | ok resp => exact schedule_inv now outs _ hinv
  | refreshOp outs => exact refreshRun_inv now outs w hinv
  | logoutOp b =>
    rcases w with ⟨st, sto, rid, pt, nid, ev⟩
    cases st with
    | none => exact hinv
    | some s =>
      exact Or.inl (cancel_pending_nil _ hinv)
  | installOp outs =>
    show TimerInv (match install now outs w with
      | .ok w1 => w1 | .error _ => w)
    rcases hr : install now outs w with w1 | e
    · exact hinv
    · exact install_inv now outs w hinv _ hr
  | timerFireOp outs =>
    rcases w with ⟨st, sto, rid, pt, nid, ev⟩
    cases pt with
    | nil => exact hinv
    | cons hd tl =>
      rcases hinv with hp | ⟨i, d, hp, hr⟩
      · exact List.noConfusion hp
      · injection hp with hhd htl
        subst hhd
        subst htl
        exact refreshRun_inv now outs _ (Or.inl rfl)

/-- A sample session whose access token expires at t=301000ms and refresh
token at t=10000000ms. -/
def sessFresh : Session :=
  { accessToken := "at", accessTokenExpiration := 301000,
    refreshToken := "rt", refreshTokenExpiration := 10000000,
    email := "user@example.com", firstName := "Ada", lastName := "Lovelace" }

/-- A sample session whose access token is already stale at t=1000ms while
its refresh token is still valid. -/
def sessStale : Session :=
  { accessToken := "at2", accessTokenExpiration := 500,
    refreshToken := "rt2", refreshTokenExpiration := 10000000,
    email := "user@example.com", firstName := "Ada", lastName := "Lovelace" }

/-- Claim C3: on every transition into LoggedIn the scheduler, after
canceling any previous timer, follows the three-branch algorithm: an
expired refresh token forces LoggedOut and clears storage; an expired
access token triggers an immediate refresh() attempt whose rejection
clears state and storage; otherwise a one-shot refresh timer is armed with
delay (accessTokenExpiration - 1 minute) - now, so accessTokenExpiration =
now + 5 min arms the timer for 4 min (240000 ms). -/
theorem c3_scheduler_branches (now : Int) (outs : List HttpResult)
    (w : World) (s : Session) (hs : w.state = some s) :
    (s.refreshTokenExpiration ≤ now →
      scheduleAutoRefresh now outs w = clearedW (cancelCurrent w)) ∧
    (¬ s.refreshTokenExpiration ≤ now → s.accessTokenExpiration ≤ now →
      scheduleAutoRefresh now outs w =
        (if (refreshRun now outs (cancelCurrent w)).2 then
          (refreshRun now outs (cancelCurrent w)).1
        else clearedW (refreshRun now outs (cancelCurrent w)).1)) ∧
    (¬ s.refreshTokenExpiration ≤ now → ¬ s.accessTokenExpiration ≤ now →
      scheduleAutoRefresh now outs w =
        armTimer (s.accessTokenExpiration - 60000 - now)
          (cancelCurrent w)) ∧
    (¬ s.refreshTokenExpiration ≤ now →
      s.accessTokenExpiration = now + 300000 →
      (scheduleAutoRefresh now outs w).pendingTimers =
        (cancelCurrent w).pendingTimers ++ [(w.nextTimerId, 240000)]) := by
  refine ⟨fun h1 => schedule_forced now outs w s hs h1,
    fun h1 h2 => schedule_immediate now outs w s hs h1 h2,
    fun h1 h2 => schedule_arm now outs w s hs h1 h2,
    fun h1 hacc => ?_⟩
  have h2 : ¬ s.accessTokenExpiration ≤ now := by omega
  rw [schedule_arm now outs w s hs h1 h2,
    show s.accessTokenExpiration - 60000 - now = (240000 : Int) from by omega]
  rfl

/-- Claim C3 witness: a login at t=1000ms with accessTokenExpiration at
t=301000ms (now + 5 min) arms the refresh timer with a 240000 ms delay. -/
theorem c3_scheduler_branches_witness :
    (scheduleAutoRefresh 1000 [] (setSession sessFresh
      (initialWorld none))).pendingTimers = [(0, 240000)] := by
  have h := (c3_scheduler_branches 1000 [] (setSession sessFresh
    (initialWorld none)) sessFresh rfl).2.2.2 (by decide) (by decide)
  exact h.trans rfl

/-- Claim C4: the navigation guard redirects to Login exactly when the
route requires authentication (default true) and the session is absent,
redirects to Home exactly when the route does not require authentication,
redirectIfLoggedIn (default true) holds and the session is present, and
allows navigation in every other combination. -/
theorem c4_navigation_guard (ra ril : Option Bool) (st : Option Session) :
    (beforeEachGuard ra ril st = .redirectLogin ↔
      (ra.getD true = true ∧ st = none)) ∧
    (beforeEachGuard ra ril st = .redirectHome ↔
      (ra.getD true = false ∧ ril.getD true = true ∧ st.isSome = true)) ∧
    (beforeEachGuard ra ril st = .allow ↔
      (¬ (ra.getD true = true ∧ st = none) ∧
        ¬ (ra.getD true = false ∧ ril.getD true = true ∧
          st.isSome = true))) := by
  rcases ra with _ | ra
  all_goals rcases ril with _ | ril
  all_goals cases st
  all_goals try cases ra
  all_goals try cases ril
  all_goals first
    | decide
    | simp [beforeEachGuard]

/-- Claim C8: logout() from a LoggedIn session attempts the authenticated
logout endpoint call and, whether that call resolves or throws, cancels any
pending timer, nulls the in-memory state, removes the persisted entry and
navigates to the Login route; the endpoint failure never reaches the
caller (the result does not depend on the endpoint outcome). -/
theorem c8_logout_unconditional (b : Bool) (w : World) (s : Session)
    (hinv : TimerInv w) (hs : w.state = some s) :
    (logout b w).state = none ∧ (logout b w).storage = none ∧
    (logout b w).pendingTimers = [] ∧
    (logout b w).events =
      w.events ++ [Event.httpLogoutCall, Event.navPushLogin] ∧
    logout true w = logout false w := by
  rcases w with ⟨st, sto, rid, pt, nid, ev⟩
  subst hs
  refine ⟨rfl, rfl, cancel_pending_nil _ hinv, ?_, rfl⟩
  show (ev ++ [Event.httpLogoutCall]) ++ [Event.navPushLogin] = _
  simp

/-- Claim C8 witness: logging out of a concrete LoggedIn world with one
armed timer clears everything and records the logout call followed by the
Login navigation. -/
theorem c8_logout_unconditional_witness :
    (logout true (armTimer 240000 (setSession sessFresh
      (initialWorld none)))).state = none ∧
    (logout true (armTimer 240000 (setSession sessFresh
      (initialWorld none)))).storage = none ∧
    (logout true (armTimer 240000 (setSession sessFresh
      (initialWorld none)))).pendingTimers = [] ∧
    (logout true (armTimer 240000 (setSession sessFresh
      (initialWorld none)))).events =
      [Event.httpLogoutCall, Event.navPushLogin] ∧
    logout true (armTimer 240000 (setSession sessFresh
      (initialWorld none))) =
      logout false (armTimer 240000 (setSession sessFresh
        (initialWorld none))) := by
  have h := c8_logout_unconditional true
    (armTimer 240000 (setSession sessFresh (initialWorld none))) sessFresh
    (Or.inr ⟨0, 240000, rfl, rfl⟩) rfl
  exact h

/-- Claim C10: logout() while logged out is a complete no-op (no HTTP call,
no state, storage or timer change, no navigation), and refresh() while
logged out resolves without an HTTP call and changes nothing. -/
theorem c10_loggedout_noop (now : Int) (b : Bool) (outs : List HttpResult)
    (w : World) (h : w.state = none) :
    logout b w = w ∧ refreshRun now outs w = (w, true) := by
  rcases w with ⟨st, sto, rid, pt, nid, ev⟩
  subst h
  exact ⟨rfl, rfl⟩

/-- Claim C10 witness: at the freshly started logged-out world, logout and
refresh leave the world untouched. -/
theorem c10_loggedout_noop_witness :
    logout true (initialWorld none) = initialWorld none ∧
    refreshRun 0 [] (initialWorld none) = (initialWorld none, true) :=
  c10_loggedout_noop 0 true [] (initialWorld none) rfl

/-- Claim C5: rehydrating at process start from a stored session whose
refreshTokenExpiration is at or before now yields LoggedOut with the
storage entry absent; a stored session whose refresh token has not expired
is loaded into the in-memory state and handed to the scheduler, and when
its access token is also still fresh the result is LoggedIn with the
refresh timer armed. -/
theorem c5_rehydrate_expiry (now : Int) (outs : List HttpResult)
    (s : Session) :
    (s.refreshTokenExpiration ≤ now →
      ∃ w1, install now outs (initialWorld (some (.session s))) = .ok w1 ∧
        w1.state = none ∧ w1.storage = none) ∧
    (¬ s.refreshTokenExpiration ≤ now →
      install now outs (initialWorld (some (.session s))) =
        .ok (scheduleAutoRefresh now outs
          { initialWorld (some (.session s)) with state := some s }) ∧
      (¬ s.accessTokenExpiration ≤ now →
        ∃ w1, install now outs (initialWorld (some (.session s))) =
            .ok w1 ∧
          w1.state = some s ∧
          w1.pendingTimers =
            [(0, s.accessTokenExpiration - 60000 - now)])) := by
  constructor
  · intro h1
    refine ⟨{ initialWorld (some (.session s)) with storage := none },
      ?_, rfl, rfl⟩
    show (match readStateFromStorage now (some (.session s)) with
      | .error _ => (.error () : Except Unit World)
      | .ok none => .ok _
      | .ok (some s1) => .ok (scheduleAutoRefresh now outs
          { initialWorld (some (.session s)) with state := some s1 })) =
      .ok { initialWorld (some (.session s)) with storage := none }
    rw [readStateFromStorage]
    simp only [if_pos h1]
  · intro h1
    have hinstall : install now outs (initialWorld (some (.session s))) =
        .ok (scheduleAutoRefresh now outs
          { initialWorld (some (.session s)) with state := some s }) := by
      show (match readStateFromStorage now (some (.session s)) with
        | .error _ => (.error () : Except Unit World)
        | .ok none => .ok _
        | .ok (some s1) => .ok (scheduleAutoRefresh now outs
            { initialWorld (some (.session s)) with state := some s1 })) = _
      rw [readStateFromStorage]
      simp only [if_neg h1]
    refine ⟨hinstall, fun h2 => ⟨_, hinstall, ?_, ?_⟩⟩
    · rw [schedule_arm now outs _ s rfl h1 h2]
      rfl
    · rw [schedule_arm now outs _ s rfl h1 h2]
      rfl

/-- Claim C5 witness: at t=1000ms, rehydrating sessFresh (refresh token
valid until t=10000000ms, access token until t=301000ms) ends LoggedIn
with one timer armed for 240000 ms; rehydrating sessFresh at t=20000000ms
(refresh token expired) ends LoggedOut with empty storage. -/
theorem c5_rehydrate_expiry_witness :
    (∃ w1, install 1000 [] (initialWorld (some (.session sessFresh))) =
        .ok w1 ∧ w1.state = some sessFresh ∧
        w1.pendingTimers = [(0, 240000)]) ∧
    (∃ w1, install 20000000 []
        (initialWorld (some (.session sessFresh))) = .ok w1 ∧
      w1.state = none ∧ w1.storage = none) := by
  constructor
  · have h := ((c5_rehydrate_expiry 1000 [] sessFresh).2
      (by decide)).2 (by decide)
    rcases h with ⟨w1, hi, hst, hpt⟩
    exact ⟨w1, hi, hst, by rw [hpt]; rfl⟩
  · exact (c5_rehydrate_expiry 20000000 [] sessFresh).1 (by decide)

/-- Claim C2 counterexample: a stored "auth" value that JSON.parse rejects
does not make the read return null — readStateFromStorage raises (the
SyntaxError of JSON.parse propagates) and so does rehydration. -/
theorem c2_storage_corruption_cex :
    readStateFromStorage 0 (some .malformed) = .error () ∧
    install 0 [] (initialWorld (some .malformed)) = .error () :=
  ⟨rfl, rfl⟩

/-- Claim C2 amended: a stored value that parses to JSON null is treated as
an absent session (the read returns null, the manager stays LoggedOut and
the entry is removed), but a value that JSON.parse rejects makes the read
and the whole rehydration throw, before any mutation. -/
theorem c2_storage_corruption_amended (now : Int) (outs : List HttpResult)
    (w : World) :
    readStateFromStorage now (some .jsonNull) = .ok none ∧
    (w.storage = some .jsonNull → w.state = none →
      install now outs w = .ok { w with storage := none } ∧
      ({ w with storage := none } : World).state = none) ∧
    (w.storage = some .malformed → install now outs w = .error ()) := by
  rcases w with ⟨st, sto, rid, pt, nid, ev⟩
  refine ⟨rfl, fun hsto hst => ?_, fun hsto => ?_⟩
  · subst hsto
    exact ⟨rfl, hst⟩
  · subst hsto
    rfl

/-- Claim C2 witness: rehydrating a world whose "auth" entry holds JSON
null removes the entry and leaves the manager LoggedOut. -/
theorem c2_storage_corruption_witness :
    install 0 [] (initialWorld (some .jsonNull)) =
      .ok { initialWorld (some .jsonNull) with storage := none } ∧
    ({ initialWorld (some .jsonNull) with storage := none } : World).state =
      none :=
  (c2_storage_corruption_amended 0 [] (initialWorld (some .jsonNull))).2.1
    rfl rfl

/-- Claim C1 counterexample: in a LoggedIn world with the armed one-shot
timer, the timer fires at t=241000ms and its refresh() attempt rejects; the
session manager does not transition to LoggedOut: the in-memory state and
the persisted entry are both left in place (only the console logs the
error), with no timer pending. -/
theorem c1_refresh_failure_cex :
    (timerFire 241000 [HttpResult.err] (armTimer 240000
      (setSession sessFresh (initialWorld none)))).state =
      some sessFresh ∧
    (timerFire 241000 [HttpResult.err] (armTimer 240000
      (setSession sessFresh (initialWorld none)))).storage =
      some (StoredData.session sessFresh) ∧
    (timerFire 241000 [HttpResult.err] (armTimer 240000
      (setSession sessFresh (initialWorld none)))).pendingTimers = [] :=
  ⟨rfl, rfl, rfl⟩

/-- Claim C1 amended: only a refresh() rejection in the scheduler's
immediate path (access token already stale on a LoggedIn transition)
transitions to LoggedOut with state nulled, storage removed, nothing
pending and no retry; a rejection of the refresh() run by the one-shot
timer leaves state and storage unchanged (the error is only logged) with
the fired timer simply consumed, and a rejection of an explicitly called
refresh() propagates to the caller with state, storage and timers
unchanged. -/
theorem c1_refresh_failure_amended :
    (∀ (now : Int) (rest : List HttpResult) (w : World) (s : Session),
      TimerInv w → w.state = some s →
      ¬ s.refreshTokenExpiration ≤ now → s.accessTokenExpiration ≤ now →
      (scheduleAutoRefresh now (.err :: rest) w).state = none ∧
      (scheduleAutoRefresh now (.err :: rest) w).storage = none ∧
      (scheduleAutoRefresh now (.err :: rest) w).pendingTimers = []) ∧
    (∀ (now : Int) (rest : List HttpResult) (w : World) (hd : Nat × Int)
      (tl : List (Nat × Int)), w.pendingTimers = hd :: tl →
      (timerFire now (.err :: rest) w).state = w.state ∧
      (timerFire now (.err :: rest) w).storage = w.storage ∧
      (timerFire now (.err :: rest) w).pendingTimers = tl) ∧
    (∀ (now : Int) (rest : List HttpResult) (w : World) (s : Session),
      w.state = some s →
      (refreshRun now (.err :: rest) w).2 = false ∧
      (refreshRun now (.err :: rest) w).1.state = w.state ∧
      (refreshRun now (.err :: rest) w).1.storage = w.storage ∧
      (refreshRun now (.err :: rest) w).1.pendingTimers =
        w.pendingTimers) := by
  refine ⟨fun now rest w s hinv hs h1 h2 => ?_,
    fun now rest w hd tl hp => ?_, fun now rest w s hs => ?_⟩
  · rw [schedule_unfold, hs]
    simp only [if_neg h1, if_pos h2]
    exact ⟨rfl, rfl, cancel_pending_nil w hinv⟩
  · rcases w with ⟨st, sto, rid, pt, nid, ev⟩
    subst hp
    cases st <;> exact ⟨rfl, rfl, rfl⟩
  · rcases w with ⟨st, sto, rid, pt, nid, ev⟩
    subst hs
    exact ⟨rfl, rfl, rfl, rfl⟩

/-- Claim C1 witness: at t=1000ms with sessStale (access token stale,
refresh token valid), the scheduler's immediate refresh attempt rejects
and the manager ends LoggedOut with storage cleared and nothing pending. -/
theorem c1_refresh_failure_witness :
    (scheduleAutoRefresh 1000 [HttpResult.err]
      (setSession sessStale (initialWorld none))).state = none ∧
    (scheduleAutoRefresh 1000 [HttpResult.err]
      (setSession sessStale (initialWorld none))).storage = none ∧
    (scheduleAutoRefresh 1000 [HttpResult.err]
      (setSession sessStale (initialWorld none))).pendingTimers = [] :=
  c1_refresh_failure_amended.1 1000 [] (setSession sessStale
    (initialWorld none)) sessStale (Or.inl rfl) rfl (by decide) (by decide)

theorem runOps_inv : ∀ (l : List (Int × Op)) (w : World), TimerInv w →
    TimerInv (runOps l w) := by
  intro l
  induction l with
  | nil => intro w hinv; exact hinv
  | cons p rest ih => intro w hinv; exact ih _ (applyOp_inv p.1 p.2 w hinv)

/-- Claim C6: at most one refresh timer is ever pending (along every
operation sequence from process start), and a completed transition into
LoggedIn — a login success, a refresh success from a LoggedIn session, or
a rehydration that loads a stored session — that ends LoggedIn leaves
exactly one timer outstanding; arming always cancels the previous timer
first, which is what keeps the pending set at one element. -/
theorem c6_timer_invariant :
    (∀ (now : Int) (op : Op) (w : World), TimerInv w →
      TimerInv (applyOp now op w)) ∧
    (∀ (l : List (Int × Op)) (st : Option StoredData),
      TimerInv (runOps l (initialWorld st))) ∧
    (∀ (now : Int) (resp : Session) (outs : List HttpResult) (w : World),
      TimerInv w →
      (login now (.ok resp) outs w).1.state.isSome = true →
      (login now (.ok resp) outs w).1.pendingTimers.length = 1) ∧
    (∀ (now : Int) (resp : Session) (rest : List HttpResult) (w : World)
      (s : Session), TimerInv w → w.state = some s →
      (refreshRun now (.ok resp :: rest) w).1.state.isSome = true →
      (refreshRun now (.ok resp :: rest) w).1.pendingTimers.length = 1) ∧
    (∀ (now : Int) (outs : List HttpResult) (w w1 : World),
      TimerInv w → w.state = none → install now outs w = .ok w1 →
      w1.state.isSome = true → w1.pendingTimers.length = 1) := by
  refine ⟨applyOp_inv, fun l st => runOps_inv l _ (Or.inl rfl),
    fun now resp outs w hinv hsome => ?_,
    fun now resp rest w s hinv hs hsome => ?_,
    fun now outs w w1 hinv hstate hok hsome => ?_⟩
  · exact schedule_len_one now outs _ hinv hsome
  · rcases w with ⟨st, sto, rid, pt, nid, ev⟩
    subst hs
    exact schedule_len_one now rest _ hinv hsome
  · rcases w with ⟨st, sto, rid, pt, nid, ev⟩
    subst hstate
    rcases sto with _ | sto
    · cases hok
      simp at hsome
    · rcases sto with _ | _ | s
      · exact Except.noConfusion hok
      · cases hok
        simp at hsome
      · by_cases h1 : s.refreshTokenExpiration ≤ now
        · rw [install, readStateFromStorage] at hok
          simp only [if_pos h1] at hok
          cases hok
          simp at hsome
        · rw [install, readStateFromStorage] at hok
          simp only [if_neg h1] at hok
          cases hok
          exact schedule_len_one now outs _ hinv hsome

/-- Claim C6 witness: a concrete successful login from the fresh
logged-out world ends LoggedIn with exactly one pending timer. -/
theorem c6_timer_invariant_witness :
    (login 1000 (.ok sessFresh) [] (initialWorld
      none)).1.pendingTimers.length = 1 :=
  c6_timer_invariant.2.2.1 1000 sessFresh [] (initialWorld none)
    (Or.inl rfl) rfl

theorem refreshRun_sync (now : Int) (outs : List HttpResult) (w : World)
    (hsync : Sync w) : Sync (refreshRun now outs w).1 := by
  rcases w with ⟨st, sto, rid, pt, nid, ev⟩
  cases st with
  | none => exact hsync
  | some s =>
    cases outs with
    | nil => exact hsync
    | cons head rest =>
      cases head with
      | err => exact hsync
      | ok resp => exact schedule_sync now rest _ rfl

/-- Claim C9: each mutating operation keeps the persisted "auth" entry and
the in-memory state synchronized: a rehydration started from a logged-out
process establishes the agreement, and login, refresh, logout and a timer
firing (including the scheduler-forced logouts they may contain) preserve
it — a populated session is stored serialized, an absent one has no
storage entry. -/
theorem c9_write_through :
    (∀ (now : Int) (outs : List HttpResult) (w w1 : World),
      w.state = none → install now outs w = .ok w1 → Sync w1) ∧
    (∀ (now : Int) (outcome : HttpResult) (outs : List HttpResult)
      (w : World), Sync w → Sync (login now outcome outs w).1) ∧
    (∀ (now : Int) (outs : List HttpResult) (w : World),
      Sync w → Sync (refreshRun now outs w).1) ∧
    (∀ (b : Bool) (w : World), Sync w → Sync (logout b w)) ∧
    (∀ (now : Int) (outs : List HttpResult) (w : World),
      Sync w → Sync (timerFire now outs w)) := by
  refine ⟨fun now outs w w1 hstate hok => ?_,
    fun now outcome outs w hsync => ?_, refreshRun_sync,
    fun b w hsync => ?_, fun now outs w hsync => ?_⟩
  · rcases w with ⟨st, sto, rid, pt, nid, ev⟩
    subst hstate
    rcases sto with _ | sto
    · cases hok
      rfl
    · rcases sto with _ | _ | s
      · exact Except.noConfusion hok
      · cases hok
        rfl
      · by_cases h1 : s.refreshTokenExpiration ≤ now
        · rw [install, readStateFromStorage] at hok
          simp only [if_pos h1] at hok
          cases hok
          rfl
        · rw [install, readStateFromStorage] at hok
          simp only [if_neg h1] at hok
          cases hok
          exact schedule_sync now outs _ rfl
  · cases outcome with
    | err => exact hsync
    | ok resp => exact schedule_sync now outs _ rfl
  · rcases w with ⟨st, sto, rid, pt, nid, ev⟩
    cases st with
    | none => exact hsync
    | some s => rfl
  · rcases w with ⟨st, sto, rid, pt, nid, ev⟩
    cases pt with
    | nil => exact hsync
    | cons hd tl => exact refreshRun_sync now outs _ hsync

/-- Claim C9 witness: a concrete successful login from the fresh
logged-out world leaves storage holding exactly the serialized in-memory
session. -/
theorem c9_write_through_witness :
    Sync (login 1000 (.ok sessFresh) [] (initialWorld none)).1 :=
  c9_write_through.2.1 1000 (.ok sessFresh) [] (initialWorld none) rfl

theorem install_eq (now : Int) (outs : List HttpResult) (w : World) :
    install now outs w =
      match readStateFromStorage now w.storage with
      | .error _ => .error ()
      | .ok none => .ok { w with storage := none }
      | .ok (some s) =>
        .ok (scheduleAutoRefresh now outs { w with state := some s }) :=
  rfl

theorem readStateFromStorage_session (now : Int) (s : Session) :
    readStateFromStorage now (some (.session s)) =
      if s.refreshTokenExpiration ≤ now then .ok none
      else .ok (some s) := rfl

theorem install_storage_none (now : Int) (outs : List HttpResult)
    (w : World) (hsto : w.storage = none) :
    install now outs w = .ok { w with storage := none } := by
  rw [install_eq, hsto]
  rfl

theorem install_storage_session (now : Int) (outs : List HttpResult)
    (w : World) (t : Session) (hsto : w.storage = some (.session t))
    (hr1 : ¬ t.refreshTokenExpiration ≤ now) :
    install now outs w =
      .ok (scheduleAutoRefresh now outs { w with state := some t }) := by
  rw [install_eq, hsto, readStateFromStorage_session, if_neg hr1]

theorem update_storage_state (w : World) :
    ({ w with storage := none } : World).state = w.state := rfl

theorem update_storage_pending (w : World) :
    ({ w with storage := none } : World).pendingTimers = w.pendingTimers :=
  rfl

theorem armTimer_pending (d : Int) (w : World) :
    (armTimer d w).pendingTimers =
      w.pendingTimers ++ [(w.nextTimerId, d)] := rfl

/-- Claim C7: rehydration is idempotent: from a fresh process with any
stored state, running install a second time (whatever outcomes its
refreshes get) throws exactly when the first did, yields the same
in-memory session state the single run produced, and never leaves two
pending refresh timers. -/
theorem c7_rehydrate_idempotent (now : Int) (outs outs2 : List HttpResult)
    (st : Option StoredData) :
    (install now outs (initialWorld st) = .error () →
      install now outs2 (initialWorld st) = .error ()) ∧
    (∀ w1, install now outs (initialWorld st) = .ok w1 →
      ∃ w2, install now outs2 w1 = .ok w2 ∧ w2.state = w1.state ∧
        w1.pendingTimers.length ≤ 1 ∧ w2.pendingTimers.length ≤ 1) := by
  rcases st with _ | st
  · refine ⟨fun h => Except.noConfusion h, fun w1 h => ?_⟩
    rw [show install now outs (initialWorld none) =
      .ok { initialWorld none with storage := none } from rfl] at h
    injection h with h
    subst h
    exact ⟨_, install_storage_none now outs2 _ rfl, rfl,
      Nat.zero_le 1, Nat.zero_le 1⟩
  · rcases st with _ | _ | s
    · exact ⟨fun _ => rfl, fun w1 h => Except.noConfusion h⟩
    · refine ⟨fun h => Except.noConfusion h, fun w1 h => ?_⟩
      rw [show install now outs (initialWorld (some .jsonNull)) =
        .ok { initialWorld (some .jsonNull) with storage := none }
        from rfl] at h
      injection h with h
      subst h
      exact ⟨_, install_storage_none now outs2 _ rfl, rfl,
        Nat.zero_le 1, Nat.zero_le 1⟩
    · by_cases h1 : s.refreshTokenExpiration ≤ now
      · have h0 : install now outs (initialWorld (some (.session s))) =
            .ok { initialWorld (some (.session s)) with storage := none }
            := by
          rw [install_eq,
            show (initialWorld (some (.session s))).storage =
              some (.session s) from rfl,
            readStateFromStorage_session, if_pos h1]
        refine ⟨fun h => ?_, fun w1 h => ?_⟩
        · rw [h0] at h
          exact Except.noConfusion h
        · rw [h0] at h
          injection h with h
          subst h
          exact ⟨_, install_storage_none now outs2 _ rfl, rfl,
            Nat.zero_le 1, Nat.zero_le 1⟩
      · have h0 : install now outs (initialWorld (some (.session s))) =
            .ok (scheduleAutoRefresh now outs
              { initialWorld (some (.session s)) with state := some s })
            := by
          rw [install_eq,
            show (initialWorld (some (.session s))).storage =
              some (.session s) from rfl,
            readStateFromStorage_session, if_neg h1]
          rfl
        refine ⟨fun h => ?_, fun w1 h => ?_⟩
        · rw [h0] at h
          exact Except.noConfusion h
        · rw [h0] at h
          injection h with h
          subst h
          rcases schedule_run now outs
              { initialWorld (some (.session s)) with state := some s } s
              (Or.inl rfl) rfl rfl with
            ⟨hst, hsto, hpt⟩ | ⟨i, t, hst, hsto, hr1, hr2, hpt, hrid⟩
          · refine ⟨_, install_storage_none now outs2 _ hsto, ?_, ?_, ?_⟩
            · exact update_storage_state _
            · rw [hpt]
              exact Nat.zero_le 1
            · rw [update_storage_pending, hpt]
              exact Nat.zero_le 1
          · have hinv1 : TimerInv { scheduleAutoRefresh now outs
                { initialWorld (some (.session s)) with state := some s }
                with state := some t } :=
              Or.inr ⟨i, t.accessTokenExpiration - 60000 - now, hpt, hrid⟩
            refine ⟨_, install_storage_session now outs2 _ t hsto hr1,
              ?_, ?_, ?_⟩
            · rw [schedule_arm now outs2 _ t rfl hr1 hr2]
              exact hst.symm
            · rw [hpt]
              exact Nat.le_refl 1
            · rw [schedule_arm now outs2 _ t rfl hr1 hr2,
                armTimer_pending, cancel_pending_nil _ hinv1]
              exact Nat.le_refl 1

/-- Claim C7 witness: rehydrating sessFresh at t=1000ms and then running
install a second time on the resulting world keeps the same in-memory
state and at most one pending timer. -/
theorem c7_rehydrate_idempotent_witness :
    ∃ w2, install 1000 [] (scheduleAutoRefresh 1000 []
        { initialWorld (some (.session sessFresh)) with
          state := some sessFresh }) = .ok w2 ∧
      w2.state = (scheduleAutoRefresh 1000 []
        { initialWorld (some (.session sessFresh)) with
          state := some sessFresh }).state ∧
      (scheduleAutoRefresh 1000 []
        { initialWorld (some (.session sessFresh)) with
          state := some sessFresh }).pendingTimers.length ≤ 1 ∧
      w2.pendingTimers.length ≤ 1 :=
  (c7_rehydrate_idempotent 1000 [] [] (some (.session sessFresh))).2
    (scheduleAutoRefresh 1000 []
      { initialWorld (some (.session sessFresh)) with
        state := some sessFresh }) rfl
